import Mathlib

set_option maxRecDepth 8192

/-
Verification of the SF2-to-SFZ converter core.

Source files embedded here:
  src/services/sf2Parser.ts   (class SF2Parser)
  src/services/sfzConverter.ts (class SFZConverter and tcToSec)

Modeling conventions: byte buffers are lists of natural numbers below 256;
JS strings are Lean strings; JS numbers are Nat or Int with explicit
reduction mod powers of two where the source relies on 16 or 32 bit
behavior; code that can throw returns Except String.  JS objects used as
number-keyed generator maps are modeled as functions Nat to Option Int,
where later insertions override earlier ones, as JS assignment does.
-/

abbrev Bytes := List Nat

/-- JS expression x || d where x is a possibly undefined nonnegative number:
undefined and 0 are both falsy, so both fall back to d. -/
def jsOr (o : Option Nat) (d : Nat) : Nat :=
  match o with
  | none => d
  | some v => if v = 0 then d else v

/-- JS array indexing arr[i] with an integer index: a negative or out of
range index yields undefined. -/
def lookupIdx {α : Type} (l : List α) (i : Int) : Option α :=
  if i < 0 then none else l.get? i.toNat

/-- Whitespace characters relevant to String.prototype.trim for the strings
arising in this program (the full JS set also contains unicode spaces, none
of which can occur in the inputs considered by the claims). -/
def isJsWhitespace (c : Char) : Bool :=
  c = ' ' || c = '\t' || c = '\n' || c = '\r' || c = '\x0b' || c = '\x0c'

/-- JS String.prototype.trim: drop leading and trailing whitespace. -/
def jsTrim (s : String) : String :=
  ⟨((s.data.dropWhile isJsWhitespace).reverse.dropWhile isJsWhitespace).reverse⟩

/-- Characters kept by the sanitize regex character class A-Za-z0-9_- . -/
def allowedChar (c : Char) : Bool :=
  ('A' ≤ c && c ≤ 'Z') || ('a' ≤ c && c ≤ 'z') || ('0' ≤ c && c ≤ '9')
    || c = '_' || c = '-'

/-- SFZConverter.sanitize (sfzConverter.ts lines 42-44): every character
outside A-Za-z0-9_- is replaced by an underscore, then the result is
trimmed. -/
def sanitize (s : String) : String :=
  jsTrim ⟨s.data.map (fun c => if allowedChar c then c else '_')⟩

/-- Little endian 16 bit write (DataView.setUint16, value reduced mod 2^16). -/
def u16le (v : Nat) : Bytes := [v % 256, v / 256 % 256]

/-- Little endian 32 bit write (DataView.setUint32, value reduced mod 2^32:
the top byte extraction already discards bits at and above 2^32). -/
def u32le (v : Nat) : Bytes :=
  [v % 256, v / 256 % 256, v / 65536 % 256, v / 16777216 % 256]

/-- DataView.setInt16 little endian: the value is reduced mod 2^16. -/
def i16le (v : Int) : Bytes := u16le (v % 65536).toNat

/-- Row of the shdr table, with the sample data attached by SF2Parser.parse.
The source field named end is called end_ here because end is a Lean
keyword.  data is none when the JS field would be undefined. -/
structure SF2Sample where
  name : String
  start : Nat
  end_ : Nat
  startLoop : Nat
  endLoop : Nat
  sampleRate : Nat
  originalPitch : Nat
  pitchCorrection : Int
  sampleLink : Nat
  sampleType : Nat
  data : Option (List Int)
deriving DecidableEq

/-- SFZConverter.createWavBuffer body for a sample whose data is present:
a 44 byte header written at offsets 0, 4, 8, 12, 16, 20, 22, 24, 28, 32,
34, 36, 40 followed by the samples at 44 + 2i.  The writes tile the
allocated buffer exactly, so the buffer is the concatenation below.  The
four big endian tag writes (RIFF, WAVE, fmt, data) are spelled as byte
lists. -/
def wavBytes (sampleRate : Nat) (d : List Int) : Bytes :=
  [0x52, 0x49, 0x46, 0x46]
    ++ u32le (36 + d.length * 2)
    ++ [0x57, 0x41, 0x56, 0x45]
    ++ [0x66, 0x6d, 0x74, 0x20]
    ++ u32le 16
    ++ u16le 1
    ++ u16le 1
    ++ u32le sampleRate
    ++ u32le (sampleRate * 2)
    ++ u16le 2
    ++ u16le 16
    ++ [0x64, 0x61, 0x74, 0x61]
    ++ u32le (d.length * 2)
    ++ (d.map i16le).flatten

/-- SFZConverter.createWavBuffer (sfzConverter.ts lines 46-70): throws when
sample.data is undefined.  A JS Int16Array value is always truthy,
including a zero length one, so only the absent field triggers the throw. -/
def createWavBuffer (sample : SF2Sample) : Except String Bytes :=
  match sample.data with
  | none => .error "No sample data found"
  | some d => .ok (wavBytes sample.sampleRate d)

/-- Row of the pgen and igen tables. -/
structure SF2Generator where
  operator : Nat
  amount : Int
deriving DecidableEq

/-- Row of the pbag and ibag tables. -/
structure SF2Bag where
  generatorStart : Nat
  modulatorStart : Nat
deriving DecidableEq

/-- Row of the phdr table. -/
structure SF2Preset where
  name : String
  preset : Nat
  bank : Nat
  bagIndex : Nat
  library : Nat
  genre : Nat
  morphology : Nat
deriving DecidableEq

/-- Row of the inst table. -/
structure SF2Instrument where
  name : String
  bagIndex : Nat
deriving DecidableEq

/-- The parsed tables as consumed by SFZConverter.getSFZContent. -/
structure ParsedData where
  presets : List SF2Preset
  instruments : List SF2Instrument
  samples : List SF2Sample
  pbag : List SF2Bag
  ibag : List SF2Bag
  pgen : List SF2Generator
  igen : List SF2Generator
deriving DecidableEq

/-- A JS object used as a number-keyed generator map. -/
abbrev GenMap := Nat → Option Int

def recEmpty : GenMap := fun _ => none

/-- JS property assignment: the new binding overrides any earlier one. -/
def recInsert (m : GenMap) (k : Nat) (v : Int) : GenMap :=
  fun q => if q = k then some v else m q

/-- JS object spread of two maps: keys of b override keys of a. -/
def recMerge (a b : GenMap) : GenMap :=
  fun q =>
    match b q with
    | some v => some v
    | none => a q

/- Generator ids used by the converter (sfzConverter.ts lines 5-37). -/

def OPER_PAN : Nat := 17
def OPER_ATTACK_VOL_ENV : Nat := 34
def OPER_DECAY_VOL_ENV : Nat := 36
def OPER_SUSTAIN_VOL_ENV : Nat := 37
def OPER_RELEASE_VOL_ENV : Nat := 38
def OPER_INSTRUMENT : Nat := 41
def OPER_KEY_RANGE : Nat := 43
def OPER_VEL_RANGE : Nat := 44
def OPER_COARSE_TUNE : Nat := 51
def OPER_FINE_TUNE : Nat := 52
def OPER_SAMPLE_ID : Nat := 53
def OPER_SAMPLE_MODES : Nat := 54
def OPER_OVERRIDING_ROOT_KEY : Nat := 58

/-- End of the generator range of bag bagIdx (sfzConverter.ts line 77):
JS expression (bags[bagIdx + 1]?.generatorStart) || genList.length; note
that via || a next start of 0 also falls back to the table length. -/
def genEndOf (bags : List SF2Bag) (genLen : Nat) (bagIdx : Nat) : Nat :=
  jsOr ((bags.get? (bagIdx + 1)).map (·.generatorStart)) genLen

/-- Sequential mapping over a list in the Except monad, stopping at the
first error, used to model JS loops whose body can throw. -/
def exMapM {α : Type} (f : Nat → Except String α) : List Nat → Except String (List α)
  | [] => .ok []
  | x :: xs =>
    match f x with
    | .error e => .error e
    | .ok y =>
      match exMapM f xs with
      | .error e => .error e
      | .ok ys => .ok (y :: ys)

/-- SFZConverter.getGenerators (sfzConverter.ts lines 72-82).  The JS guard
also tests bagIdx < 0, which cannot happen for the Nat valued callers.  The
loop body reads genList[i] and dereferences it, which throws when the index
is out of range; that is the error case here. -/
def getGenerators (bags : List SF2Bag) (genList : List SF2Generator)
    (bagIdx : Nat) : Except String GenMap :=
  if h : bagIdx < bags.length then
    let start := (bags.get ⟨bagIdx, h⟩).generatorStart
    let e := genEndOf bags genList.length bagIdx
    match exMapM (fun i =>
        match genList.get? i with
        | some g => .ok g
        | none => .error "TypeError: undefined generator entry")
        ((List.range (e - start)).map (start + ·)) with
    | .error msg => .error msg
    | .ok gs => .ok (gs.foldl (fun m g => recInsert m g.operator g.amount) recEmpty)
  else .ok recEmpty

/-- Condition of sfzConverter.ts line 101 under which the first preset bag
is kept as the global preset zone: firstPBagGens[OPER_INSTRUMENT] is
undefined and pBagEnd > pBagStart. -/
def presetZoneIsGlobal (firstGens : GenMap) (s e : Nat) : Bool :=
  (firstGens OPER_INSTRUMENT).isNone && decide (s < e)

/-- Condition of sfzConverter.ts line 119 for the first instrument bag,
keyed on the sampleID generator. -/
def instZoneIsGlobal (firstGens : GenMap) (s e : Nat) : Bool :=
  (firstGens OPER_SAMPLE_ID).isNone && decide (s < e)

/-- JS ToInt32: reduce into the signed 32 bit range. -/
def toInt32 (v : Int) : Int :=
  let m := v % 4294967296
  if m < 2147483648 then m else m - 4294967296

/-- JS expression (v & 0x7F): both operands pass through ToInt32 and the
mask keeps the low seven bits of the two-complement representation, which
is reduction mod 128 (128 divides 2^32, so ToInt32 does not disturb it). -/
def jsAnd7F (v : Int) : Nat := ((v % 4294967296).toNat) % 128

/-- JS expression ((v >> 8) & 0x7F): arithmetic shift right by eight of
ToInt32(v), which is floor division by 256, then the same seven bit mask. -/
def jsShr8And7F (v : Int) : Nat := (((toInt32 v).fdiv 256) % 128).toNat

/-- Number.prototype.toFixed(2) for values that are exact multiples of
1/100 (every value rendered with it below is): fixed two digit decimal
rendering.  The integer n below is exact for such inputs. -/
def toFixed2Q (q : ℚ) : String :=
  let n : Int := q.num * 100 / q.den
  let sign := if n < 0 then "-" else ""
  let a := n.natAbs
  sign ++ toString (a / 100) ++ "." ++ (if a % 100 < 10 then "0" else "") ++ toString (a % 100)

/-- Pan rendering (sfzConverter.ts line 180): (value / 10).toFixed(2).
value / 10 has a single decimal digit, so the JS double computation rounds
to the same two digit decimal as the exact rational rendering.
Rat.divInt v 10 is the exact rational v / 10 (see the C9 theorem). -/
def panStr (v : Int) : String := toFixed2Q (Rat.divInt v 10)

/-- The ampeg directives render transcendental values, 2 ^ (v / 1200) for
the time generators and 10 ^ (-(v / 10) / 20) * 100 for sustain, through
toFixed on JS doubles.  Their floating point rendering is kept abstract as
a formatter parameter; the exact real valued functions are tcToSec and
sustainPercent further below. -/
structure NumFmt where
  tcToSec4 : Int → String
  sustainPct2 : Int → String

/-- A throwaway concrete formatter for evaluating concrete runs in which
no ampeg directive is emitted. -/
def fmt0 : NumFmt := ⟨fun _ => "", fun _ => ""⟩

/-- Key range emission (sfzConverter.ts lines 145-154). -/
def keyRangeText (kr : Option Int) : String :=
  match kr with
  | none => "lokey=0 hikey=127\n"
  | some v =>
    let lo := jsAnd7F v
    let hi := jsShr8And7F v
    if lo = hi then "key=" ++ toString lo ++ "\n"
    else "lokey=" ++ toString lo ++ " hikey=" ++ toString hi ++ "\n"

/-- Velocity range emission (sfzConverter.ts lines 156-161): emitted only
when present, no default. -/
def velRangeText (vr : Option Int) : String :=
  match vr with
  | none => ""
  | some v =>
    "lovel=" ++ toString (jsAnd7F v) ++ " hivel=" ++ toString (jsShr8And7F v) ++ "\n"

/-- Pitch center (sfzConverter.ts lines 184-186): the overriding root key
generator when present and not -1, else the sample header pitch. -/
def rootKeyOf (combined : GenMap) (sample : SF2Sample) : Int :=
  match combined OPER_OVERRIDING_ROOT_KEY with
  | some v => if v = -1 then (sample.originalPitch : Int) else v
  | none => (sample.originalPitch : Int)

/-- JS expression (x || 0) where x is a number or undefined: undefined and
0 both give 0, so this is the same as defaulting the absent key to 0. -/
def jsOrZero (o : Option Int) : Int :=
  match o with
  | none => 0
  | some v => v

/-- Tuning emission (sfzConverter.ts lines 189-193). -/
def tuneText (combined : GenMap) (sample : SF2Sample) : String :=
  let tune := jsOrZero (combined OPER_COARSE_TUNE) * 100
      + jsOrZero (combined OPER_FINE_TUNE) + sample.pitchCorrection
  if tune = 0 then "" else "tune=" ++ toString tune ++ "\n"

/-- Loop emission (sfzConverter.ts lines 196-202): the low two bits of the
sample mode generator, mask & 0x03 on the two-complement value, select the
loop behavior. -/
def loopText (combined : GenMap) (sample : SF2Sample) : String :=
  let sampleModes :=
    match combined OPER_SAMPLE_MODES with
    | some v => v
    | none => 0
  let loopMode := sampleModes % 4
  if loopMode = 1 ∨ loopMode = 3 then
    "loop_mode=loop_continuous\n"
      ++ "loop_start=" ++ toString ((sample.startLoop : Int) - (sample.start : Int)) ++ "\n"
      ++ "loop_end=" ++ toString ((sample.endLoop : Int) - (sample.start : Int)) ++ "\n"
  else ""

/-- A directive line emitted only when the generator key is present. -/
def optLine (o : Option Int) (key : String) (render : Int → String) : String :=
  match o with
  | none => ""
  | some v => key ++ render v ++ "\n"

/-- One region block (sfzConverter.ts lines 141-204), in source order. -/
def regionText (fmt : NumFmt) (sample : SF2Sample) (combined : GenMap) : String :=
  "<region>\n"
    ++ "sample=" ++ sanitize sample.name ++ ".wav\n"
    ++ keyRangeText (combined OPER_KEY_RANGE)
    ++ velRangeText (combined OPER_VEL_RANGE)
    ++ optLine (combined OPER_ATTACK_VOL_ENV) "ampeg_attack=" fmt.tcToSec4
    ++ optLine (combined OPER_DECAY_VOL_ENV) "ampeg_decay=" fmt.tcToSec4
    ++ optLine (combined OPER_SUSTAIN_VOL_ENV) "ampeg_sustain=" fmt.sustainPct2
    ++ optLine (combined OPER_RELEASE_VOL_ENV) "ampeg_release=" fmt.tcToSec4
    ++ optLine (combined OPER_PAN) "pan=" panStr
    ++ "pitch_keycenter=" ++ toString (rootKeyOf combined sample) ++ "\n"
    ++ tuneText combined sample
    ++ loopText combined sample
    ++ "\n"

/-- Range special case (sfzConverter.ts lines 134-139): overwrite the
merged map at op with the instrument local value when defined, else with
the preset local value when defined, else leave the merged map unchanged. -/
def rangeOverride (op : Nat) (iGens pGens : GenMap) (m : GenMap) : GenMap :=
  match iGens op with
  | some v => recInsert m op v
  | none =>
    match pGens op with
    | some v => recInsert m op v
    | none => m

/-- One iteration of the instrument bag loop (sfzConverter.ts lines
123-205): skips a zone without a sampleID generator, skips an invalid or
EOS sample reference, otherwise merges the four generator layers in spread
order with the range special case and emits one region.  Returns the text
appended by this iteration. -/
def processIBagZone (fmt : NumFmt) (data : ParsedData)
    (globalPresetGens pGens globalInstGens : GenMap) (ib : Nat) :
    Except String String :=
  match getGenerators data.ibag data.igen ib with
  | .error e => .error e
  | .ok iGens =>
    match iGens OPER_SAMPLE_ID with
    | none => .ok ""
    | some sampleId =>
      match lookupIdx data.samples sampleId with
      | none => .ok ""
      | some sample =>
        if sample.name = "EOS" then .ok ""
        else
          let combined0 :=
            recMerge (recMerge (recMerge globalPresetGens pGens) globalInstGens) iGens
          let combined :=
            rangeOverride OPER_VEL_RANGE iGens pGens
              (rangeOverride OPER_KEY_RANGE iGens pGens combined0)
          .ok (regionText fmt sample combined)

/-- String accumulation over a list of loop indices in the Except monad:
the shape of the sfz += emission loops. -/
def exFoldStr (k : Nat → Except String String) (acc : String) :
    List Nat → Except String String
  | [] => .ok acc
  | x :: xs =>
    match k x with
    | .error e => .error e
    | .ok t => exFoldStr k (acc ++ t) xs

/-- End of the preset zone range (sfzConverter.ts line 96): JS expression
(presets[idx + 1]?.bagIndex) || pbag.length, idx1 being idx + 1. -/
def pBagEndOf (presets : List SF2Preset) (pbagLen : Nat) (idx1 : Int) : Nat :=
  jsOr ((lookupIdx presets idx1).map (·.bagIndex)) pbagLen

/-- End of the instrument zone range (sfzConverter.ts line 114): JS
expression (instruments[instId + 1]?.bagIndex) || ibag.length. -/
def iBagEndOf (instruments : List SF2Instrument) (ibagLen : Nat) (idx1 : Int) : Nat :=
  jsOr ((lookupIdx instruments idx1).map (·.bagIndex)) ibagLen

/-- One iteration of the preset bag loop (sfzConverter.ts lines 105-206):
skips a zone without an instrument generator, skips an invalid instrument
reference, otherwise detects the global instrument zone and runs the
instrument bag loop.  Returns the text appended by this iteration. -/
def processPBagZone (fmt : NumFmt) (data : ParsedData)
    (globalPresetGens : GenMap) (pb : Nat) : Except String String :=
  match getGenerators data.pbag data.pgen pb with
  | .error e => .error e
  | .ok pGens =>
    match pGens OPER_INSTRUMENT with
    | none => .ok ""
    | some instId =>
      match lookupIdx data.instruments instId with
      | none => .ok ""
      | some instrument =>
        let iBagStart := instrument.bagIndex
        let iBagEnd := iBagEndOf data.instruments data.ibag.length (instId + 1)
        match getGenerators data.ibag data.igen iBagStart with
        | .error e => .error e
        | .ok firstIBagGens =>
          let globalInstGens :=
            if instZoneIsGlobal firstIBagGens iBagStart iBagEnd then firstIBagGens
            else recEmpty
          exFoldStr
            (fun ib => processIBagZone fmt data globalPresetGens pGens globalInstGens ib)
            "" ((List.range (iBagEnd - iBagStart)).map (iBagStart + ·))

/-- Array.prototype.indexOf over the preset table; JS identity equality is
modeled as structural equality (the converter is called with elements of
the table itself). -/
def jsIndexOf (l : List SF2Preset) (p : SF2Preset) : Int :=
  match l.findIdx? (fun q => q == p) with
  | some i => (i : Int)
  | none => -1

/-- The document head emitted before any zone processing (sfzConverter.ts
lines 89-93): two comment lines, the control block and the default_path
directive. -/
def headerOf (preset : SF2Preset) (outputBase : String) : String :=
  let presetNameClean := jsTrim preset.name
  "// " ++ presetNameClean ++ "\n"
    ++ "// Converted from SF2 to SFZ by SF2 to SFZ Studio\n\n"
    ++ "<control>\n"
    ++ "default_path=" ++ outputBase ++ " " ++ presetNameClean ++ " Samples\n\n"

/-- SFZConverter.getSFZContent (sfzConverter.ts lines 84-208). -/
def getSFZContent (fmt : NumFmt) (preset : SF2Preset) (data : ParsedData)
    (outputBase : String) : Except String String :=
  let pBagStart := preset.bagIndex
  let pBagEnd := pBagEndOf data.presets data.pbag.length (jsIndexOf data.presets preset + 1)
  match getGenerators data.pbag data.pgen pBagStart with
  | .error e => .error e
  | .ok firstPBagGens =>
    let globalPresetGens :=
      if presetZoneIsGlobal firstPBagGens pBagStart pBagEnd then firstPBagGens
      else recEmpty
    exFoldStr (fun pb => processPBagZone fmt data globalPresetGens pb)
      (headerOf preset outputBase)
      ((List.range (pBagEnd - pBagStart)).map (pBagStart + ·))

/-- Time cent conversion (sfzConverter.ts line 39): tcToSec. -/
noncomputable def tcToSec (tc : ℝ) : ℝ := (2 : ℝ) ^ (tc / 1200)

/-- The sustain percentage computed on sfzConverter.ts lines 167-169:
sustainDb = v / 10, ratio = 10 ^ (-sustainDb / 20), percent = ratio * 100. -/
noncomputable def sustainPercent (cb : ℝ) : ℝ := (10 : ℝ) ^ (-(cb / 10) / 20) * 100

/- Embedding of src/services/sf2Parser.ts (class SF2Parser).  The DataView
read helpers throw a RangeError when a read falls outside the buffer;
those are the error cases of the readers below. -/

/-- DataView.getUint8. -/
def getU8 (b : Bytes) (off : Nat) : Except String Nat :=
  match b.get? off with
  | some v => .ok v
  | none => .error "RangeError: offset outside bounds"

/-- DataView.getUint16 little endian (SF2Parser.readUint16). -/
def getU16 (b : Bytes) (off : Nat) : Except String Nat := do
  let lo ← getU8 b off
  let hi ← getU8 b (off + 1)
  return lo + 256 * hi

/-- DataView.getUint32 little endian (SF2Parser.readUint32). -/
def getU32 (b : Bytes) (off : Nat) : Except String Nat := do
  let b0 ← getU8 b off
  let b1 ← getU8 b (off + 1)
  let b2 ← getU8 b (off + 2)
  let b3 ← getU8 b (off + 3)
  return b0 + 256 * b1 + 65536 * b2 + 16777216 * b3

/-- DataView.getInt16 little endian (SF2Parser.readInt16). -/
def getI16 (b : Bytes) (off : Nat) : Except String Int := do
  let v ← getU16 b off
  return if v < 32768 then (v : Int) else (v : Int) - 65536

/-- DataView.getInt8 (SF2Parser.readInt8). -/
def getI8 (b : Bytes) (off : Nat) : Except String Int := do
  let v ← getU8 b off
  return if v < 128 then (v : Int) else (v : Int) - 256

/-- Character accumulation of SF2Parser.readString: read up to n bytes,
stopping early at the first NUL byte; bytes after the NUL are not read at
all, so they cannot raise a RangeError. -/
def readStringAux (b : Bytes) : Nat → Nat → Except String (List Char)
  | _, 0 => .ok []
  | off, n + 1 =>
    match getU8 b off with
    | .error e => .error e
    | .ok c =>
      if c = 0 then .ok []
      else
        match readStringAux b (off + 1) n with
        | .error e => .error e
        | .ok rest => .ok (Char.ofNat c :: rest)

/-- SF2Parser.readString: join the characters and trim.  The cursor always
advances by the full length, so subsequent fields sit at fixed offsets. -/
def readString (b : Bytes) (off len : Nat) : Except String String :=
  match readStringAux b off len with
  | .error e => .error e
  | .ok cs => .ok (jsTrim ⟨cs⟩)

/-- Iteration count of the JS record loops: for (i = 0; i < size / width;
i++) with real valued division runs ceil(size / width) iterations, which
for a size that is an exact multiple of the record width is size / width
and otherwise is one more than the truncating quotient.  There is no
divisibility check in the source. -/
def jsLoopCount (size width : Nat) : Nat := (size + width - 1) / width

/-- One 38 byte record of SF2Parser.readPhdr: name 20 bytes, three u16
fields, three u32 fields. -/
def readPhdrRecord (b : Bytes) (off : Nat) : Except String SF2Preset := do
  let name ← readString b off 20
  let preset ← getU16 b (off + 20)
  let bank ← getU16 b (off + 22)
  let bagIndex ← getU16 b (off + 24)
  let library ← getU32 b (off + 26)
  let genre ← getU32 b (off + 30)
  let morphology ← getU32 b (off + 34)
  return ⟨name, preset, bank, bagIndex, library, genre, morphology⟩

/-- SF2Parser.readPhdr (sf2Parser.ts lines 132-147): count = size / 38. -/
def readPhdr (b : Bytes) (off size : Nat) : Except String (List SF2Preset) :=
  exMapM (fun i => readPhdrRecord b (off + 38 * i)) (List.range (jsLoopCount size 38))

/-- One 4 byte record of SF2Parser.readBag. -/
def readBagRecord (b : Bytes) (off : Nat) : Except String SF2Bag := do
  let generatorStart ← getU16 b off
  let modulatorStart ← getU16 b (off + 2)
  return ⟨generatorStart, modulatorStart⟩

/-- SF2Parser.readBag (sf2Parser.ts lines 149-159): count = size / 4. -/
def readBag (b : Bytes) (off size : Nat) : Except String (List SF2Bag) :=
  exMapM (fun i => readBagRecord b (off + 4 * i)) (List.range (jsLoopCount size 4))

/-- One 4 byte record of SF2Parser.readGen: u16 operator, i16 amount. -/
def readGenRecord (b : Bytes) (off : Nat) : Except String SF2Generator := do
  let operator ← getU16 b off
  let amount ← getI16 b (off + 2)
  return ⟨operator, amount⟩

/-- SF2Parser.readGen (sf2Parser.ts lines 161-171): count = size / 4. -/
def readGen (b : Bytes) (off size : Nat) : Except String (List SF2Generator) :=
  exMapM (fun i => readGenRecord b (off + 4 * i)) (List.range (jsLoopCount size 4))

/-- One 22 byte record of SF2Parser.readInst: name 20 bytes, u16 bagIndex. -/
def readInstRecord (b : Bytes) (off : Nat) : Except String SF2Instrument := do
  let name ← readString b off 20
  let bagIndex ← getU16 b (off + 20)
  return ⟨name, bagIndex⟩

/-- SF2Parser.readInst (sf2Parser.ts lines 173-183): count = size / 22. -/
def readInst (b : Bytes) (off size : Nat) : Except String (List SF2Instrument) :=
  exMapM (fun i => readInstRecord b (off + 22 * i)) (List.range (jsLoopCount size 22))

/-- One 46 byte record of SF2Parser.readShdr: name 20 bytes, five u32
fields, u8 originalPitch, i8 pitchCorrection, two u16 fields.  The data
field is undefined until SF2Parser.parse attaches it. -/
def readShdrRecord (b : Bytes) (off : Nat) : Except String SF2Sample := do
  let name ← readString b off 20
  let start ← getU32 b (off + 20)
  let end2 ← getU32 b (off + 24)
  let startLoop ← getU32 b (off + 28)
  let endLoop ← getU32 b (off + 32)
  let sampleRate ← getU32 b (off + 36)
  let originalPitch ← getU8 b (off + 40)
  let pitchCorrection ← getI8 b (off + 41)
  let sampleLink ← getU16 b (off + 42)
  let sampleType ← getU16 b (off + 44)
  return ⟨name, start, end2, startLoop, endLoop, sampleRate, originalPitch,
    pitchCorrection, sampleLink, sampleType, none⟩

/-- SF2Parser.readShdr (sf2Parser.ts lines 185-203): count = size / 46. -/
def readShdr (b : Bytes) (off size : Nat) : Except String (List SF2Sample) :=
  exMapM (fun i => readShdrRecord b (off + 46 * i)) (List.range (jsLoopCount size 46))

/-- The pdta object built by SF2Parser.parsePdta: fields of sub-chunks that
never occur stay undefined. -/
structure Pdta where
  phdr : Option (List SF2Preset) := none
  pbag : Option (List SF2Bag) := none
  pgen : Option (List SF2Generator) := none
  inst : Option (List SF2Instrument) := none
  ibag : Option (List SF2Bag) := none
  igen : Option (List SF2Generator) := none
  shdr : Option (List SF2Sample) := none
deriving DecidableEq

/-- SF2Parser.parsePdta (sf2Parser.ts lines 110-130): walk sub-chunks while
offset < limit; after each sub-chunk the cursor is set to the declared next
offset.  The returned Nat is the final cursor position, which the caller
continues from (it can exceed limit when a declared size overshoots).  The
fuel argument only bounds the iteration count; every iteration advances the
offset by at least 8, so the callers pass a fuel that cannot run out. -/
def parsePdtaLoop (b : Bytes) : Nat → Nat → Nat → Pdta → Except String (Pdta × Nat)
  | 0, _, _, _ => .error "loop limit exceeded"
  | fuel + 1, off, limit, acc =>
    if off < limit then
      match readString b off 4 with
      | .error e => .error e
      | .ok id =>
        match getU32 b (off + 4) with
        | .error e => .error e
        | .ok size =>
          let body := off + 8
          let next := body + size
          let step : Except String Pdta :=
            if id = "phdr" then (readPhdr b body size).map fun l => { acc with phdr := some l }
            else if id = "pbag" then (readBag b body size).map fun l => { acc with pbag := some l }
            else if id = "pgen" then (readGen b body size).map fun l => { acc with pgen := some l }
            else if id = "inst" then (readInst b body size).map fun l => { acc with inst := some l }
            else if id = "ibag" then (readBag b body size).map fun l => { acc with ibag := some l }
            else if id = "igen" then (readGen b body size).map fun l => { acc with igen := some l }
            else if id = "shdr" then (readShdr b body size).map fun l => { acc with shdr := some l }
            else .ok acc
          match step with
          | .error e => .error e
          | .ok acc2 => parsePdtaLoop b fuel next limit acc2
    else .ok (acc, off)

/-- The sdta walk inside SF2Parser.parse (sf2Parser.ts lines 71-82): find
the smpl sub-chunk and remember its offset and size; the cursor advances by
the declared size either way.  Returns the state and the final cursor. -/
def sdtaLoop (b : Bytes) : Nat → Nat → Nat → Nat × Nat → Except String ((Nat × Nat) × Nat)
  | 0, _, _, _ => .error "loop limit exceeded"
  | fuel + 1, off, limit, st =>
    if off < limit then
      match readString b off 4 with
      | .error e => .error e
      | .ok subId =>
        match getU32 b (off + 4) with
        | .error e => .error e
        | .ok subSize =>
          let st2 := if subId = "smpl" then (off + 8, subSize) else st
          sdtaLoop b fuel (off + 8 + subSize) limit st2
    else .ok (st, off)

/-- Parser state threaded through the top level chunk walk. -/
structure WalkState where
  pdta : Pdta
  sdtaOffset : Nat
  sdtaSize : Nat
deriving DecidableEq

/-- The top level chunk walk of SF2Parser.parse (sf2Parser.ts lines
61-89): recurse into pdta and sdta lists, skip everything else by its
declared size.  The cursor continues from wherever the sub-walk ended. -/
def mainLoop (b : Bytes) : Nat → Nat → WalkState → Except String WalkState
  | 0, _, _ => .error "loop limit exceeded"
  | fuel + 1, off, st =>
    if off < b.length then
      match readString b off 4 with
      | .error e => .error e
      | .ok chunkId =>
        match getU32 b (off + 4) with
        | .error e => .error e
        | .ok chunkSize =>
          let endOffset := off + 8 + chunkSize
          if chunkId = "LIST" then
            match readString b (off + 8) 4 with
            | .error e => .error e
            | .ok listType =>
              if listType = "pdta" then
                match parsePdtaLoop b fuel (off + 12) endOffset st.pdta with
                | .error e => .error e
                | .ok (pd, off2) => mainLoop b fuel off2 { st with pdta := pd }
              else if listType = "sdta" then
                match sdtaLoop b fuel (off + 12) endOffset (st.sdtaOffset, st.sdtaSize) with
                | .error e => .error e
                | .ok (sd, off2) =>
                  mainLoop b fuel off2 { st with sdtaOffset := sd.1, sdtaSize := sd.2 }
              else mainLoop b fuel endOffset st
          else mainLoop b fuel endOffset st
    else .ok st

/-- ArrayBuffer.prototype.slice with nonnegative arguments: clamp both ends
to the buffer length, empty when start is past end. -/
def jsSlice (b : Bytes) (s e : Nat) : Bytes := (b.take e).drop s

/-- Reinterpretation of two little endian bytes as a signed 16 bit value. -/
def i16OfNat (v : Nat) : Int :=
  if v % 65536 < 32768 then ((v % 65536 : Nat) : Int)
  else ((v % 65536 : Nat) : Int) - 65536

def bytesToI16Aux : Bytes → List Int
  | lo :: hi :: rest => i16OfNat (lo + 256 * hi) :: bytesToI16Aux rest
  | _ => []

/-- new Int16Array(buffer): throws a RangeError when the byte length is not
a multiple of 2, otherwise reinterprets pairs of bytes. -/
def bytesToI16 (l : Bytes) : Except String (List Int) :=
  if l.length % 2 = 0 then .ok (bytesToI16Aux l) else .error "RangeError: Int16Array byte length"

/-- Sample materialization in SF2Parser.parse (sf2Parser.ts lines 92-97):
slice the PCM pool at byte offsets 2 * start .. 2 * end and attach the
result; the data field is always assigned, possibly an empty array. -/
def attachData (b : Bytes) (sdtaOffset : Nat) (s : SF2Sample) : Except String SF2Sample :=
  let start := s.start * 2
  let end2 := s.end_ * 2
  match bytesToI16 (jsSlice b (sdtaOffset + start) (sdtaOffset + end2)) with
  | .error e => .error e
  | .ok d => .ok { s with data := some d }

def attachAll (b : Bytes) (sdtaOffset : Nat) : List SF2Sample → Except String (List SF2Sample)
  | [] => .ok []
  | s :: ss =>
    match attachData b sdtaOffset s with
    | .error e => .error e
    | .ok s2 =>
      match attachAll b sdtaOffset ss with
      | .error e => .error e
      | .ok ss2 => .ok (s2 :: ss2)

/-- The object returned by SF2Parser.parse: table fields whose sub-chunk
never occurred are undefined. -/
structure ParseResult where
  presets : Option (List SF2Preset)
  instruments : Option (List SF2Instrument)
  samples : List SF2Sample
  pbag : Option (List SF2Bag)
  ibag : Option (List SF2Bag)
  pgen : Option (List SF2Generator)
  igen : Option (List SF2Generator)
deriving DecidableEq

/-- SF2Parser.parse (sf2Parser.ts lines 49-108).  The RIFF and sfbk tag
checks are the only validation; accessing pdta.shdr.map throws when no shdr
sub-chunk occurred.  The fuel b.length + 2 bounds the loop iterations,
each of which advances the cursor by at least 8 bytes, so it cannot run
out before the cursor passes the end of the buffer. -/
def parse (b : Bytes) : Except String ParseResult :=
  match readString b 0 4 with
  | .error e => .error e
  | .ok riff =>
    if riff ≠ "RIFF" then .error "Not a RIFF file"
    else
      match getU32 b 4 with
      | .error e => .error e
      | .ok _ =>
        match readString b 8 4 with
        | .error e => .error e
        | .ok fb =>
          if fb ≠ "sfbk" then .error "Not a SoundFont file"
          else
            match mainLoop b (b.length + 2) 12 ⟨{}, 0, 0⟩ with
            | .error e => .error e
            | .ok st =>
              match st.pdta.shdr with
              | none => .error "TypeError: pdta.shdr is undefined"
              | some hdrs =>
                match attachAll b st.sdtaOffset hdrs with
                | .error e => .error e
                | .ok samples =>
                  .ok ⟨st.pdta.phdr, st.pdta.inst, samples,
                    st.pdta.pbag, st.pdta.ibag, st.pdta.pgen, st.pdta.igen⟩

/- Auxiliary observation functions and concrete inputs used by the
theorems below. -/

/-- Read back a little endian 32 bit field from a byte buffer. -/
def readU32le (b : Bytes) (off : Nat) : Option Nat :=
  match b.get? off, b.get? (off + 1), b.get? (off + 2), b.get? (off + 3) with
  | some b0, some b1, some b2, some b3 => some (b0 + 256 * b1 + 65536 * b2 + 16777216 * b3)
  | _, _, _, _ => none

/-- Whether an Except value is a success. -/
def exceptOk {ε α : Type} : Except ε α → Bool
  | .ok _ => true
  | .error _ => false

/-- A sample whose data buffer is present but has zero length, as the
parser produces for the EOS sentinel header. -/
def emptyDataSample : SF2Sample := ⟨"EOS", 0, 0, 0, 0, 0, 0, 0, 0, 0, some []⟩

/-- A sample holding one hundred zero valued frames. -/
def testSample100 : SF2Sample :=
  ⟨"Snd", 0, 100, 0, 0, 44100, 60, 0, 0, 1, some (List.replicate 100 0)⟩

/-- Concrete converter input: one preset with a single local zone that
references instrument 0; the instrument has a global zone carrying a key
range (packed value 1285, low 5 high 5) and one local zone referencing
sample 0.  Neither local zone carries a key range generator. -/
def cexSample : SF2Sample := ⟨"Snd", 0, 0, 0, 0, 44100, 60, 0, 0, 1, some []⟩

def cexPreset : SF2Preset := ⟨"P", 0, 0, 0, 0, 0, 0⟩

def cexData : ParsedData :=
  ⟨[cexPreset], [⟨"I", 0⟩], [cexSample],
    [⟨0, 0⟩],
    [⟨0, 0⟩, ⟨1, 0⟩],
    [⟨41, 0⟩],
    [⟨43, 1285⟩, ⟨53, 0⟩]⟩

/-- Concrete converter input in which every zone is skipped: preset zone 0
references instrument 5 of an empty instrument table, preset zone 1 has no
instrument generator; instrument zone 0 references the EOS sample,
instrument zone 1 references a nonexistent sample index 7. -/
def qPreset : SF2Preset := ⟨"Q", 0, 0, 0, 0, 0, 0⟩

def skipData : ParsedData :=
  ⟨[qPreset], [], [⟨"EOS", 0, 0, 0, 0, 0, 0, 0, 0, 0, some []⟩],
    [⟨0, 0⟩, ⟨1, 0⟩],
    [⟨0, 0⟩, ⟨1, 0⟩],
    [⟨41, 5⟩],
    [⟨53, 0⟩, ⟨53, 7⟩]⟩

/-- Concrete 125 byte SF2 image whose phdr sub-chunk declares size 39,
which is not a multiple of the 38 byte record width.  The pdta list also
carries a valid 46 byte shdr sub-chunk holding the EOS sentinel.  The
second phdr record read overlaps the following shdr sub-chunk bytes but
stays inside the buffer. -/
def cexBuf : Bytes :=
  [82, 73, 70, 70, 117, 0, 0, 0, 115, 102, 98, 107,
   76, 73, 83, 84, 105, 0, 0, 0, 112, 100, 116, 97,
   112, 104, 100, 114, 39, 0, 0, 0,
   65, 0, 0, 0, 0, 0, 0, 0, 0, 0, 0, 0, 0, 0, 0, 0, 0, 0, 0, 0,
   1, 0, 0, 0, 0, 0, 0, 0, 0, 0, 0, 0, 0, 0, 0, 0, 0, 0, 0,
   115, 104, 100, 114, 46, 0, 0, 0,
   69, 79, 83, 0, 0, 0, 0, 0, 0, 0, 0, 0, 0, 0, 0, 0, 0, 0, 0, 0,
   0, 0, 0, 0, 0, 0, 0, 0, 0, 0, 0, 0, 0, 0, 0, 0, 0, 0, 0, 0, 0, 0, 0, 0, 0, 0]

/- Shared helper lemmas. -/

theorem str_append_assoc (a b c : String) : a ++ b ++ c = a ++ (b ++ c) := by
  apply String.ext
  simp [String.data_append, List.append_assoc]

theorem str_append_empty (a : String) : a ++ "" = a := by
  apply String.ext
  simp [String.data_append]

theorem exFoldStr_ok_extends (k : Nat → Except String String) :
    ∀ (l : List Nat) (acc out : String), exFoldStr k acc l = .ok out →
      ∃ t, out = acc ++ t := by
  intro l
  induction l with
  | nil =>
    intro acc out h
    refine ⟨"", ?_⟩
    have : acc = out := by simpa [exFoldStr] using h
    rw [← this, str_append_empty]
  | cons x xs ih =>
    intro acc out h
    cases hx : k x with
    | error e => simp [exFoldStr, hx] at h
    | ok t =>
      simp only [exFoldStr, hx] at h
      obtain ⟨t2, ht2⟩ := ih (acc ++ t) out h
      exact ⟨t ++ t2, by rw [ht2, str_append_assoc]⟩

theorem exFoldStr_all_empty (k : Nat → Except String String)
    (hk : ∀ x, k x = .ok "") :
    ∀ (l : List Nat) (acc : String), exFoldStr k acc l = .ok acc := by
  intro l
  induction l with
  | nil => intro acc; rfl
  | cons x xs ih =>
    intro acc
    simp only [exFoldStr, hk x]
    rw [str_append_empty]
    exact ih acc

theorem exMapM_ok {α : Type} (f : Nat → Except String α) :
    ∀ (l : List Nat), (∀ x ∈ l, ∃ y, f x = .ok y) →
      ∃ l2, exMapM f l = .ok l2 ∧ l2.length = l.length := by
  intro l
  induction l with
  | nil => intro _; exact ⟨[], rfl, rfl⟩
  | cons x xs ih =>
    intro h
    obtain ⟨y, hy⟩ := h x (by simp)
    obtain ⟨l2, hl2, hlen⟩ := ih (fun z hz => h z (by simp [hz]))
    exact ⟨y :: l2, by simp [exMapM, hy, hl2], by simp [hlen]⟩

theorem except_bind_ok {ε α β : Type} (a : α) (f : α → Except ε β) :
    (Except.ok a >>= f : Except ε β) = f a := rfl

theorem getU8_ok (b : Bytes) (off : Nat) (h : off < b.length) :
    ∃ v, getU8 b off = .ok v := by
  cases hg : b.get? off with
  | none =>
    rw [List.get?_eq_none] at hg
    omega
  | some v =>
    refine ⟨v, ?_⟩
    unfold getU8
    rw [hg]

theorem getU16_ok (b : Bytes) (off : Nat) (h : off + 1 < b.length) :
    ∃ v, getU16 b off = .ok v := by
  obtain ⟨lo, hlo⟩ := getU8_ok b (off) (by omega)
  obtain ⟨hi, hhi⟩ := getU8_ok b (off + 1) (by omega)
  exact ⟨lo + 256 * hi, by simp [getU16, hlo, hhi, except_bind_ok]⟩

theorem getU32_ok (b : Bytes) (off : Nat) (h : off + 3 < b.length) :
    ∃ v, getU32 b off = .ok v := by
  obtain ⟨b0, h0⟩ := getU8_ok b (off) (by omega)
  obtain ⟨b1, h1⟩ := getU8_ok b (off + 1) (by omega)
  obtain ⟨b2, h2⟩ := getU8_ok b (off + 2) (by omega)
  obtain ⟨b3, h3⟩ := getU8_ok b (off + 3) (by omega)
  exact ⟨b0 + 256 * b1 + 65536 * b2 + 16777216 * b3, by simp [getU32, h0, h1, h2, h3, except_bind_ok]⟩

theorem getI16_ok (b : Bytes) (off : Nat) (h : off + 1 < b.length) :
    ∃ v, getI16 b off = .ok v := by
  obtain ⟨v, hv⟩ := getU16_ok b (off) h
  exact ⟨if v < 32768 then (v : Int) else (v : Int) - 65536, by simp [getI16, hv, except_bind_ok]⟩

theorem getI8_ok (b : Bytes) (off : Nat) (h : off < b.length) :
    ∃ v, getI8 b off = .ok v := by
  obtain ⟨v, hv⟩ := getU8_ok b (off) h
  exact ⟨if v < 128 then (v : Int) else (v : Int) - 256, by simp [getI8, hv, except_bind_ok]⟩

theorem readStringAux_ok (b : Bytes) :
    ∀ (n off : Nat), off + n ≤ b.length → ∃ cs, readStringAux b off n = .ok cs := by
  intro n
  induction n with
  | zero => intro off _; exact ⟨[], rfl⟩
  | succ m ih =>
    intro off h
    obtain ⟨c, hc⟩ := getU8_ok b (off) (by omega)
    by_cases hz : c = 0
    · exact ⟨[], by simp [readStringAux, hc, hz]⟩
    · obtain ⟨rest, hrest⟩ := ih (off + 1) (by omega)
      exact ⟨Char.ofNat c :: rest, by simp [readStringAux, hc, hz, hrest]⟩

theorem readString_ok (b : Bytes) (off len : Nat) (h : off + len ≤ b.length) :
    ∃ s, readString b off len = .ok s := by
  obtain ⟨cs, hcs⟩ := readStringAux_ok b len off h
  exact ⟨jsTrim ⟨cs⟩, by simp [readString, hcs]⟩

theorem readPhdrRecord_ok (b : Bytes) (off : Nat) (h : off + 38 ≤ b.length) :
    ∃ r, readPhdrRecord b off = .ok r := by
  obtain ⟨name, h1⟩ := readString_ok b (off) 20 (by omega)
  obtain ⟨v1, h2⟩ := getU16_ok b (off + 20) (by omega)
  obtain ⟨v2, h3⟩ := getU16_ok b (off + 22) (by omega)
  obtain ⟨v3, h4⟩ := getU16_ok b (off + 24) (by omega)
  obtain ⟨v4, h5⟩ := getU32_ok b (off + 26) (by omega)
  obtain ⟨v5, h6⟩ := getU32_ok b (off + 30) (by omega)
  obtain ⟨v6, h7⟩ := getU32_ok b (off + 34) (by omega)
  exact ⟨⟨name, v1, v2, v3, v4, v5, v6⟩,
    by simp [readPhdrRecord, h1, h2, h3, h4, h5, h6, h7, except_bind_ok]⟩

theorem readBagRecord_ok (b : Bytes) (off : Nat) (h : off + 4 ≤ b.length) :
    ∃ r, readBagRecord b off = .ok r := by
  obtain ⟨v1, h1⟩ := getU16_ok b (off) (by omega)
  obtain ⟨v2, h2⟩ := getU16_ok b (off + 2) (by omega)
  exact ⟨⟨v1, v2⟩, by simp [readBagRecord, h1, h2, except_bind_ok]⟩

theorem readGenRecord_ok (b : Bytes) (off : Nat) (h : off + 4 ≤ b.length) :
    ∃ r, readGenRecord b off = .ok r := by
  obtain ⟨v1, h1⟩ := getU16_ok b (off) (by omega)
  obtain ⟨v2, h2⟩ := getI16_ok b (off + 2) (by omega)
  exact ⟨⟨v1, v2⟩, by simp [readGenRecord, h1, h2, except_bind_ok]⟩

theorem readInstRecord_ok (b : Bytes) (off : Nat) (h : off + 22 ≤ b.length) :
    ∃ r, readInstRecord b off = .ok r := by
  obtain ⟨name, h1⟩ := readString_ok b (off) 20 (by omega)
  obtain ⟨v1, h2⟩ := getU16_ok b (off + 20) (by omega)
  exact ⟨⟨name, v1⟩, by simp [readInstRecord, h1, h2, except_bind_ok]⟩

theorem readShdrRecord_ok (b : Bytes) (off : Nat) (h : off + 46 ≤ b.length) :
    ∃ r, readShdrRecord b off = .ok r := by
  obtain ⟨name, h1⟩ := readString_ok b (off) 20 (by omega)
  obtain ⟨v1, h2⟩ := getU32_ok b (off + 20) (by omega)
  obtain ⟨v2, h3⟩ := getU32_ok b (off + 24) (by omega)
  obtain ⟨v3, h4⟩ := getU32_ok b (off + 28) (by omega)
  obtain ⟨v4, h5⟩ := getU32_ok b (off + 32) (by omega)
  obtain ⟨v5, h6⟩ := getU32_ok b (off + 36) (by omega)
  obtain ⟨v6, h7⟩ := getU8_ok b (off + 40) (by omega)
  obtain ⟨v7, h8⟩ := getI8_ok b (off + 41) (by omega)
  obtain ⟨v8, h9⟩ := getU16_ok b (off + 42) (by omega)
  obtain ⟨v9, h10⟩ := getU16_ok b (off + 44) (by omega)
  exact ⟨⟨name, v1, v2, v3, v4, v5, v6, v7, v8, v9, none⟩,
    by simp [readShdrRecord, h1, h2, h3, h4, h5, h6, h7, h8, h9, h10, except_bind_ok]⟩

theorem readPhdr_ok (b : Bytes) (off size : Nat)
    (h : off + 38 * jsLoopCount size 38 ≤ b.length) :
    ∃ l, readPhdr b off size = .ok l ∧ l.length = jsLoopCount size 38 := by
  obtain ⟨l, hl, hlen⟩ := exMapM_ok (fun i => readPhdrRecord b (off + 38 * i))
    (List.range (jsLoopCount size 38)) (fun i hi => by
      rw [List.mem_range] at hi
      exact readPhdrRecord_ok b (off + 38 * i) (by omega))
  exact ⟨l, by unfold readPhdr; exact hl, by simpa using hlen⟩

theorem readBag_ok (b : Bytes) (off size : Nat)
    (h : off + 4 * jsLoopCount size 4 ≤ b.length) :
    ∃ l, readBag b off size = .ok l ∧ l.length = jsLoopCount size 4 := by
  obtain ⟨l, hl, hlen⟩ := exMapM_ok (fun i => readBagRecord b (off + 4 * i))
    (List.range (jsLoopCount size 4)) (fun i hi => by
      rw [List.mem_range] at hi
      exact readBagRecord_ok b (off + 4 * i) (by omega))
  exact ⟨l, by unfold readBag; exact hl, by simpa using hlen⟩

theorem readGen_ok (b : Bytes) (off size : Nat)
    (h : off + 4 * jsLoopCount size 4 ≤ b.length) :
    ∃ l, readGen b off size = .ok l ∧ l.length = jsLoopCount size 4 := by
  obtain ⟨l, hl, hlen⟩ := exMapM_ok (fun i => readGenRecord b (off + 4 * i))
    (List.range (jsLoopCount size 4)) (fun i hi => by
      rw [List.mem_range] at hi
      exact readGenRecord_ok b (off + 4 * i) (by omega))
  exact ⟨l, by unfold readGen; exact hl, by simpa using hlen⟩

theorem readInst_ok (b : Bytes) (off size : Nat)
    (h : off + 22 * jsLoopCount size 22 ≤ b.length) :
    ∃ l, readInst b off size = .ok l ∧ l.length = jsLoopCount size 22 := by
  obtain ⟨l, hl, hlen⟩ := exMapM_ok (fun i => readInstRecord b (off + 22 * i))
    (List.range (jsLoopCount size 22)) (fun i hi => by
      rw [List.mem_range] at hi
      exact readInstRecord_ok b (off + 22 * i) (by omega))
  exact ⟨l, by unfold readInst; exact hl, by simpa using hlen⟩

theorem readShdr_ok (b : Bytes) (off size : Nat)
    (h : off + 46 * jsLoopCount size 46 ≤ b.length) :
    ∃ l, readShdr b off size = .ok l ∧ l.length = jsLoopCount size 46 := by
  obtain ⟨l, hl, hlen⟩ := exMapM_ok (fun i => readShdrRecord b (off + 46 * i))
    (List.range (jsLoopCount size 46)) (fun i hi => by
      rw [List.mem_range] at hi
      exact readShdrRecord_ok b (off + 46 * i) (by omega))
  exact ⟨l, by unfold readShdr; exact hl, by simpa using hlen⟩

/- Claim C1. -/

/-- C1 (amended): the first zone of a preset (resp. instrument) zone range
is classified as global iff its generator map lacks the terminating
generator for that level (instrument id 41, sampleID id 53) and the zone
range is nonempty, that is, contains at least ONE zone.  The source
condition pBagEnd > pBagStart does not require two zones, so a single zone
preset or instrument whose only zone lacks the terminator is classified as
global (see the counterexample). -/
theorem global_zone_iff (g : GenMap) (s e : Nat) :
    (presetZoneIsGlobal g s e = true ↔ g OPER_INSTRUMENT = none ∧ s < e)
    ∧ (instZoneIsGlobal g s e = true ↔ g OPER_SAMPLE_ID = none ∧ s < e) := by
  unfold presetZoneIsGlobal instZoneIsGlobal
  constructor <;> simp [Option.isNone_iff_eq_none]

/-- C1 counterexample: a zone range with exactly one zone, s = 0 and e = 1,
whose first zone has no generators at all, is classified as global at both
levels, while the claim says a single zone preset or instrument is never
classified as global. -/
theorem single_zone_classified_global :
    presetZoneIsGlobal recEmpty 0 1 = true
    ∧ instZoneIsGlobal recEmpty 0 1 = true
    ∧ ¬ (0 + 2 ≤ 1) := by
  refine ⟨rfl, rfl, by omega⟩

/- Claim C2. -/

/-- C2 (amended): the parser performs no divisibility check on the declared
byte size of the fixed record sub-chunks.  Each table reader decodes
ceil(size / width) records, the loop condition i < size / width over real
valued division, with the final partial record reading past the declared
sub-chunk boundary; the read succeeds whenever those reads stay inside the
buffer, with no error raised for a size that is not a multiple of the
record width. -/
theorem record_tables_no_divisibility_check (b : Bytes) (off size : Nat) :
    (off + 38 * jsLoopCount size 38 ≤ b.length →
      ∃ l, readPhdr b off size = .ok l ∧ l.length = jsLoopCount size 38)
    ∧ (off + 4 * jsLoopCount size 4 ≤ b.length →
      ∃ l, readBag b off size = .ok l ∧ l.length = jsLoopCount size 4)
    ∧ (off + 4 * jsLoopCount size 4 ≤ b.length →
      ∃ l, readGen b off size = .ok l ∧ l.length = jsLoopCount size 4)
    ∧ (off + 22 * jsLoopCount size 22 ≤ b.length →
      ∃ l, readInst b off size = .ok l ∧ l.length = jsLoopCount size 22)
    ∧ (off + 46 * jsLoopCount size 46 ≤ b.length →
      ∃ l, readShdr b off size = .ok l ∧ l.length = jsLoopCount size 46) :=
  ⟨fun h => readPhdr_ok b off size h, fun h => readBag_ok b off size h,
    fun h => readGen_ok b off size h, fun h => readInst_ok b off size h,
    fun h => readShdr_ok b off size h⟩

/-- C2 counterexample: cexBuf declares a phdr sub-chunk of size 39, not a
multiple of 38, yet parse raises no error and returns tables: two phdr
records are decoded, the second one read from bytes past the declared
sub-chunk end. -/
theorem parse_nonmultiple_size_counterexample :
    (39 : Nat) % 38 ≠ 0
    ∧ readU32le cexBuf 28 = some 39
    ∧ parse cexBuf = .ok ⟨some [⟨"A", 1, 0, 0, 0, 0, 0⟩, ⟨"", 0, 0, 0, 0, 0, 0⟩],
        none, [⟨"EOS", 0, 0, 0, 0, 0, 0, 0, 0, 0, some []⟩], none, none, none, none⟩ := by
  refine ⟨by decide, by decide, by rfl⟩

/-- C2 witness: on a buffer of eighty zero bytes a phdr table of declared
size 39 decodes successfully to ceil(39 / 38) = 2 records. -/
theorem record_tables_no_divisibility_check_witness :
    ∃ l, readPhdr (List.replicate 80 0) 0 39 = .ok l ∧ l.length = 2 := by
  obtain ⟨l, hl, hlen⟩ :=
    (record_tables_no_divisibility_check (List.replicate 80 0) 0 39).1 (by decide)
  exact ⟨l, hl, by rw [hlen]; decide⟩

/- Claim C3. -/

/-- C3 (amended): for the bagIndex and generatorStart zone indexing
convention, the computed zone range end for record i equals the zone start
of record i + 1 when i is not the last record AND that zone start is
nonzero; when the next record start is 0 the JS || operator makes the end
fall back to the zone table length; for the last record the end is the
table length. -/
theorem zone_end_computation (bags : List SF2Bag) (presets : List SF2Preset)
    (genLen pbagLen i : Nat) :
    (∀ h : i + 1 < bags.length,
      genEndOf bags genLen i =
        if (bags.get ⟨i + 1, h⟩).generatorStart = 0 then genLen
        else (bags.get ⟨i + 1, h⟩).generatorStart)
    ∧ (bags.length ≤ i + 1 → genEndOf bags genLen i = genLen)
    ∧ (∀ h : i + 1 < presets.length,
      pBagEndOf presets pbagLen ((i : Int) + 1) =
        if (presets.get ⟨i + 1, h⟩).bagIndex = 0 then pbagLen
        else (presets.get ⟨i + 1, h⟩).bagIndex)
    ∧ (presets.length ≤ i + 1 → pBagEndOf presets pbagLen ((i : Int) + 1) = pbagLen) := by
  refine ⟨?_, ?_, ?_, ?_⟩
  · intro h
    unfold genEndOf
    rw [List.get?_eq_get h]
    simp [jsOr]
  · intro h
    unfold genEndOf
    rw [List.get?_eq_none.mpr h]
    simp [jsOr]
  · intro h
    unfold pBagEndOf lookupIdx
    rw [if_neg (by omega)]
    have ht : ((i : Int) + 1).toNat = i + 1 := by omega
    rw [ht, List.get?_eq_get h]
    simp [jsOr]
  · intro h
    unfold pBagEndOf lookupIdx
    rw [if_neg (by omega)]
    have ht : ((i : Int) + 1).toNat = i + 1 := by omega
    rw [ht, List.get?_eq_none.mpr h]
    simp [jsOr]

/-- C3 counterexample: when the next record declares zone start 0 the
computed zone end is the table length, not 0: with a second bag whose
generatorStart is 0 and a generator table of length 7, the end computed
for record 0 is 7, while the claim says it must equal the next record
start even when that start is 0. -/
theorem zone_end_zero_counterexample :
    genEndOf [⟨5, 0⟩, ⟨0, 0⟩] 7 0 = 7
    ∧ ([⟨5, 0⟩, ⟨0, 0⟩] : List SF2Bag).get? 1 = some ⟨0, 0⟩
    ∧ pBagEndOf [⟨"a", 0, 0, 3, 0, 0, 0⟩, ⟨"b", 0, 0, 0, 0, 0, 0⟩] 9 1 = 9
    ∧ (lookupIdx [(⟨"a", 0, 0, 3, 0, 0, 0⟩ : SF2Preset), ⟨"b", 0, 0, 0, 0, 0, 0⟩] 1)
        = some ⟨"b", 0, 0, 0, 0, 0, 0⟩ := by
  refine ⟨by decide, by decide, by decide, by decide⟩

/-- C3 witness: with a nonzero next start the end equals the next record
start, and for a last record the end equals the table length. -/
theorem zone_end_computation_witness :
    genEndOf [⟨5, 0⟩, ⟨3, 0⟩] 7 0 = 3 ∧ genEndOf [⟨5, 0⟩] 7 0 = 7 := by
  constructor
  · have h := (zone_end_computation [⟨5, 0⟩, ⟨3, 0⟩] [] 7 0 0).1 (by decide)
    rw [h]; decide
  · exact (zone_end_computation [⟨5, 0⟩] [] 7 0 0).2.1 (by decide)

/- Claim C5. -/

/-- C5 (amended): createWavBuffer fails iff the data buffer is absent
(undefined).  A present but zero length Int16Array is truthy in JS, so a
zero length sample does not fail and instead produces the 44 byte header
only WAV buffer. -/
theorem createWavBuffer_error_iff (s : SF2Sample) :
    (exceptOk (createWavBuffer s) = true ↔ s.data ≠ none)
    ∧ (s.data = some [] →
        createWavBuffer s = .ok (wavBytes s.sampleRate [])
        ∧ (wavBytes s.sampleRate []).length = 44) := by
  constructor
  · cases h : s.data <;> simp [createWavBuffer, h, exceptOk]
  · intro h
    exact ⟨by simp [createWavBuffer, h], rfl⟩

/-- C5 counterexample: a sample whose data buffer is present but has zero
length raises no error: createWavBuffer returns the 44 byte header only
WAV buffer, while the claim says a zero length data buffer must fail. -/
theorem zero_length_data_no_error :
    emptyDataSample.data = some []
    ∧ createWavBuffer emptyDataSample =
        .ok [82, 73, 70, 70, 36, 0, 0, 0, 87, 65, 86, 69, 102, 109, 116, 32,
          16, 0, 0, 0, 1, 0, 1, 0, 0, 0, 0, 0, 0, 0, 0, 0, 2, 0, 16, 0,
          100, 97, 116, 97, 0, 0, 0, 0] :=
  ⟨rfl, rfl⟩

/-- C5 witness: the amended theorem applied to the zero length sample. -/
theorem createWavBuffer_error_iff_witness :
    exceptOk (createWavBuffer emptyDataSample) = true
    ∧ createWavBuffer emptyDataSample = .ok (wavBytes emptyDataSample.sampleRate []) := by
  refine ⟨?_, ?_⟩
  · exact (createWavBuffer_error_iff emptyDataSample).1.mpr (by decide)
  · exact ((createWavBuffer_error_iff emptyDataSample).2 rfl).1

/- Claim C6. -/

theorem flatten_i16le_length :
    ∀ d : List Int, ((d.map i16le).flatten).length = 2 * d.length := by
  intro d
  induction d with
  | nil => rfl
  | cons x xs ih =>
    simp [i16le, u16le, ih]
    omega

theorem wavBytes_eq (rate : Nat) (d : List Int) :
    wavBytes rate d =
      0x52 :: 0x49 :: 0x46 :: 0x46
        :: (36 + d.length * 2) % 256 :: (36 + d.length * 2) / 256 % 256
        :: (36 + d.length * 2) / 65536 % 256 :: (36 + d.length * 2) / 16777216 % 256
        :: 0x57 :: 0x41 :: 0x56 :: 0x45 :: 0x66 :: 0x6d :: 0x74 :: 0x20
        :: 16 :: 0 :: 0 :: 0 :: 1 :: 0 :: 1 :: 0
        :: rate % 256 :: rate / 256 % 256 :: rate / 65536 % 256 :: rate / 16777216 % 256
        :: (rate * 2) % 256 :: (rate * 2) / 256 % 256 :: (rate * 2) / 65536 % 256
        :: (rate * 2) / 16777216 % 256
        :: 2 :: 0 :: 16 :: 0 :: 0x64 :: 0x61 :: 0x74 :: 0x61
        :: (d.length * 2) % 256 :: (d.length * 2) / 256 % 256
        :: (d.length * 2) / 65536 % 256 :: (d.length * 2) / 16777216 % 256
        :: (d.map i16le).flatten := rfl

theorem wavBytes_length (rate : Nat) (d : List Int) :
    (wavBytes rate d).length = 44 + 2 * d.length := by
  rw [wavBytes_eq]
  simp only [List.length_cons, flatten_i16le_length]
  omega

theorem readU32le_wavBytes_40 (rate : Nat) (d : List Int) :
    readU32le (wavBytes rate d) 40 =
      some (d.length * 2 % 256 + 256 * (d.length * 2 / 256 % 256)
        + 65536 * (d.length * 2 / 65536 % 256)
        + 16777216 * (d.length * 2 / 16777216 % 256)) := by
  rw [wavBytes_eq]
  rfl

theorem readU32le_wavBytes_4 (rate : Nat) (d : List Int) :
    readU32le (wavBytes rate d) 4 =
      some ((36 + d.length * 2) % 256 + 256 * ((36 + d.length * 2) / 256 % 256)
        + 65536 * ((36 + d.length * 2) / 65536 % 256)
        + 16777216 * ((36 + d.length * 2) / 16777216 % 256)) := by
  rw [wavBytes_eq]
  rfl

theorem wavBytes_drop_44 (rate : Nat) (d : List Int) :
    (wavBytes rate d).drop 44 = (d.map i16le).flatten := by
  rw [wavBytes_eq]
  rfl

/-- C6: for a sample with n 16 bit frames, createWavBuffer yields a buffer
of exactly 44 + 2n bytes whose little endian u32 data size field at byte
offset 40 is 2n, whose RIFF size field at offset 4 is 36 + 2n, and whose
bytes from offset 44 on are the frames encoded little endian as signed 16
bit values verbatim.  The size bound keeps the two 32 bit header fields
from wrapping, as any realizable JS buffer satisfies. -/
theorem createWavBuffer_layout (s : SF2Sample) (d : List Int) (hd : s.data = some d)
    (hn : 36 + 2 * d.length < 4294967296) :
    ∃ out, createWavBuffer s = .ok out
      ∧ out.length = 44 + 2 * d.length
      ∧ readU32le out 40 = some (2 * d.length)
      ∧ readU32le out 4 = some (36 + 2 * d.length)
      ∧ out.drop 44 = (d.map i16le).flatten := by
  refine ⟨wavBytes s.sampleRate d, by simp [createWavBuffer, hd], wavBytes_length _ _,
    ?_, ?_, wavBytes_drop_44 _ _⟩
  · rw [readU32le_wavBytes_40]
    congr 1
    omega
  · rw [readU32le_wavBytes_4]
    congr 1
    omega

/-- C6 witness: for one hundred frames the buffer is 244 bytes and the
data size field reads 200. -/
theorem createWavBuffer_layout_witness :
    ∃ out, createWavBuffer testSample100 = .ok out ∧ out.length = 244
      ∧ readU32le out 40 = some 200 := by
  obtain ⟨out, h1, h2, h3, _, _⟩ :=
    createWavBuffer_layout testSample100 (List.replicate 100 0) rfl (by decide)
  refine ⟨out, h1, ?_, ?_⟩
  · rw [h2]; decide
  · rw [h3]; decide

/- Claim C7. -/

/-- C7: key range emission: with no resolved key range value the default
line lokey=0 hikey=127 is emitted; for a resolved packed value v the low
bound is (v & 0x7F), which equals v mod 128, and the high bound is
((v >> 8) & 0x7F), which for the 16 bit generator amounts equals the floor
shift by 256 reduced mod 128; equal bounds emit a single key= directive
instead of the lokey= hikey= pair. -/
theorem keyrange_emission_rules :
    (keyRangeText none = "lokey=0 hikey=127\n")
    ∧ (∀ v : Int, jsAnd7F v = (v % 128).toNat)
    ∧ (∀ v : Int, -32768 ≤ v → v < 32768 →
        jsShr8And7F v = ((v.fdiv 256) % 128).toNat)
    ∧ (∀ v : Int, jsAnd7F v = jsShr8And7F v →
        keyRangeText (some v) = "key=" ++ toString (jsAnd7F v) ++ "\n")
    ∧ (∀ v : Int, jsAnd7F v ≠ jsShr8And7F v →
        keyRangeText (some v) =
          "lokey=" ++ toString (jsAnd7F v) ++ " hikey=" ++ toString (jsShr8And7F v) ++ "\n") := by
  refine ⟨rfl, ?_, ?_, ?_, ?_⟩
  · intro v
    unfold jsAnd7F
    omega
  · intro v h1 h2
    have ht : toInt32 v = v := by
      simp only [toInt32]
      split <;> omega
    unfold jsShr8And7F
    rw [ht]
  · intro v h
    simp only [keyRangeText]
    rw [if_pos h]
  · intro v h
    simp only [keyRangeText]
    rw [if_neg h]

/-- C7 witness: packed value 1285 has equal bounds 5 and collapses to a
single key directive; packed value 60 has bounds 60 and 0 and emits the
pair. -/
theorem keyrange_emission_rules_witness :
    jsShr8And7F 1285 = ((Int.fdiv 1285 256) % 128).toNat
    ∧ keyRangeText (some 1285) = "key=5\n"
    ∧ keyRangeText (some 60) = "lokey=60 hikey=0\n" := by
  refine ⟨keyrange_emission_rules.2.2.1 1285 (by decide) (by decide), ?_, ?_⟩
  · have h := keyrange_emission_rules.2.2.2.1 1285 (by decide)
    rw [h]; decide
  · have h := keyrange_emission_rules.2.2.2.2 60 (by decide)
    rw [h]; decide

/- Claim C4. -/

theorem rangeOverride_lookup (op : Nat) (ig pg m : GenMap) :
    rangeOverride op ig pg m op =
      match ig op with
      | some v => some v
      | none =>
        match pg op with
        | some v => some v
        | none => m op := by
  unfold rangeOverride recInsert
  cases ig op <;> cases pg op <;> simp

theorem rangeOverride_lookup_ne {op op2 : Nat} (h : op2 ≠ op) (ig pg m : GenMap) :
    rangeOverride op ig pg m op2 = m op2 := by
  unfold rangeOverride recInsert
  cases ig op <;> cases pg op <;> simp [h]

/-- C4 (amended): the key range and velocity range of a region are resolved
as: the instrument local zone value when that zone defines one, else the
preset local zone value when that zone defines one, else the value left in
the spread merged map, that is, the global instrument zone value when
defined, else the global preset zone value.  The region is unranged only
when NO layer defines a range; a range defined only in a global zone is
not discarded (see the counterexample). -/
theorem range_resolution (gp pg gi ig : GenMap) :
    (rangeOverride OPER_VEL_RANGE ig pg
        (rangeOverride OPER_KEY_RANGE ig pg
          (recMerge (recMerge (recMerge gp pg) gi) ig)) OPER_KEY_RANGE
      = (match ig OPER_KEY_RANGE with
         | some v => some v
         | none =>
           match pg OPER_KEY_RANGE with
           | some v => some v
           | none =>
             match gi OPER_KEY_RANGE with
             | some v => some v
             | none => gp OPER_KEY_RANGE))
    ∧ (rangeOverride OPER_VEL_RANGE ig pg
        (rangeOverride OPER_KEY_RANGE ig pg
          (recMerge (recMerge (recMerge gp pg) gi) ig)) OPER_VEL_RANGE
      = (match ig OPER_VEL_RANGE with
         | some v => some v
         | none =>
           match pg OPER_VEL_RANGE with
           | some v => some v
           | none =>
             match gi OPER_VEL_RANGE with
             | some v => some v
             | none => gp OPER_VEL_RANGE)) := by
  constructor
  · rw [rangeOverride_lookup_ne (by decide), rangeOverride_lookup]
    unfold recMerge
    cases ig OPER_KEY_RANGE <;> cases pg OPER_KEY_RANGE <;>
      cases gi OPER_KEY_RANGE <;> simp
  · rw [rangeOverride_lookup]
    rw [rangeOverride_lookup_ne (by decide)]
    unfold recMerge
    cases ig OPER_VEL_RANGE <;> cases pg OPER_VEL_RANGE <;>
      cases gi OPER_VEL_RANGE <;> simp

/-- C4 counterexample: in cexData only the GLOBAL instrument zone defines a
key range (packed value 1285, bounds 5 and 5); neither local zone defines
one.  The claim says the region must then be unranged and emit the
default line lokey=0 hikey=127, but the emitted region carries key=5,
the global zone value surviving the spread merge. -/
theorem global_range_not_discarded :
    getSFZContent fmt0 cexPreset cexData "Base" =
      .ok ("// P\n// Converted from SF2 to SFZ by SF2 to SFZ Studio\n\n<control>\ndefault_path=Base P Samples\n\n<region>\nsample=Snd.wav\nkey=5\npitch_keycenter=60\n\n")
    ∧ (match getGenerators cexData.pbag cexData.pgen 0 with
       | .ok g => g OPER_KEY_RANGE
       | .error _ => some 0) = none
    ∧ (match getGenerators cexData.ibag cexData.igen 1 with
       | .ok g => g OPER_KEY_RANGE
       | .error _ => some 0) = none := by
  refine ⟨rfl, rfl, rfl⟩

/- Claim C8. -/

theorem processPBagZone_oob (fmt : NumFmt) (data : ParsedData) (gpg : GenMap)
    (pb : Nat) (h : data.pbag.length ≤ pb) :
    processPBagZone fmt data gpg pb = .ok "" := by
  unfold processPBagZone getGenerators
  rw [dif_neg (by omega)]
  rfl

/-- C8: a preset zone whose instrument generator references a nonexistent
instrument index is skipped without error; an instrument zone whose
sampleID references a nonexistent sample index or the EOS sentinel sample
is skipped without error; every successful output extends the document
head, the two comment lines plus the control block with its default_path
directive; and when every preset zone is skipped the output is exactly
that head, a document with zero regions. -/
theorem invalid_refs_skipped_header_kept :
    (∀ (fmt : NumFmt) (data : ParsedData) (gpg : GenMap) (pb : Nat) (g : GenMap),
      getGenerators data.pbag data.pgen pb = .ok g → g OPER_INSTRUMENT = none →
      processPBagZone fmt data gpg pb = .ok "")
    ∧ (∀ (fmt : NumFmt) (data : ParsedData) (gpg : GenMap) (pb : Nat) (g : GenMap) (v : Int),
      getGenerators data.pbag data.pgen pb = .ok g → g OPER_INSTRUMENT = some v →
      lookupIdx data.instruments v = none →
      processPBagZone fmt data gpg pb = .ok "")
    ∧ (∀ (fmt : NumFmt) (data : ParsedData) (gpg pg gig : GenMap) (ib : Nat)
        (g : GenMap) (v : Int),
      getGenerators data.ibag data.igen ib = .ok g → g OPER_SAMPLE_ID = some v →
      lookupIdx data.samples v = none →
      processIBagZone fmt data gpg pg gig ib = .ok "")
    ∧ (∀ (fmt : NumFmt) (data : ParsedData) (gpg pg gig : GenMap) (ib : Nat)
        (g : GenMap) (v : Int) (smp : SF2Sample),
      getGenerators data.ibag data.igen ib = .ok g → g OPER_SAMPLE_ID = some v →
      lookupIdx data.samples v = some smp → smp.name = "EOS" →
      processIBagZone fmt data gpg pg gig ib = .ok "")
    ∧ (∀ (fmt : NumFmt) (preset : SF2Preset) (data : ParsedData) (base out : String),
      getSFZContent fmt preset data base = .ok out →
      ∃ t, out = headerOf preset base ++ t)
    ∧ (∀ (fmt : NumFmt) (preset : SF2Preset) (data : ParsedData) (base : String)
        (g : GenMap),
      getGenerators data.pbag data.pgen preset.bagIndex = .ok g →
      (∀ (gpg : GenMap) (pb : Nat), processPBagZone fmt data gpg pb = .ok "") →
      getSFZContent fmt preset data base = .ok (headerOf preset base)) := by
  refine ⟨?_, ?_, ?_, ?_, ?_, ?_⟩
  · intro fmt data gpg pb g hg h41
    simp only [processPBagZone, hg, h41]
  · intro fmt data gpg pb g v hg h41 hlook
    simp only [processPBagZone, hg, h41, hlook]
  · intro fmt data gpg pg gig ib g v hg h53 hlook
    simp only [processIBagZone, hg, h53, hlook]
  · intro fmt data gpg pg gig ib g v smp hg h53 hlook hname
    simp [processIBagZone, hg, h53, hlook, hname]
  · intro fmt preset data base out h
    simp only [getSFZContent] at h
    cases hg : getGenerators data.pbag data.pgen preset.bagIndex with
    | error e =>
      rw [hg] at h
      exact Except.noConfusion h
    | ok g =>
      rw [hg] at h
      exact exFoldStr_ok_extends _ _ _ _ h
  · intro fmt preset data base g hg hall
    simp only [getSFZContent]
    rw [hg]
    exact exFoldStr_all_empty _ (fun x => hall _ x) _ _

/-- C8 witness: each skip rule and the header preservation applied at the
concrete skipData input, in which every zone is skipped and the emitted
document is exactly the head with zero regions. -/
theorem invalid_refs_skipped_header_kept_witness :
    processPBagZone fmt0 skipData recEmpty 1 = .ok ""
    ∧ processPBagZone fmt0 skipData recEmpty 0 = .ok ""
    ∧ processIBagZone fmt0 skipData recEmpty recEmpty recEmpty 1 = .ok ""
    ∧ processIBagZone fmt0 skipData recEmpty recEmpty recEmpty 0 = .ok ""
    ∧ getSFZContent fmt0 qPreset skipData "B" = .ok (headerOf qPreset "B")
    ∧ (∃ t, headerOf qPreset "B" = headerOf qPreset "B" ++ t) := by
  have h5 : getSFZContent fmt0 qPreset skipData "B" = .ok (headerOf qPreset "B") := by
    refine invalid_refs_skipped_header_kept.2.2.2.2.2 fmt0 qPreset skipData "B"
      (recInsert recEmpty 41 5) rfl ?_
    intro gpg pb
    match pb with
    | 0 => rfl
    | 1 => rfl
    | n + 2 =>
      exact processPBagZone_oob fmt0 skipData gpg (n + 2) (by show 2 ≤ n + 2; omega)
  refine ⟨?_, ?_, ?_, ?_, h5,
    invalid_refs_skipped_header_kept.2.2.2.2.1 fmt0 qPreset skipData "B" _ h5⟩
  · exact invalid_refs_skipped_header_kept.1 fmt0 skipData recEmpty 1 recEmpty rfl rfl
  · exact invalid_refs_skipped_header_kept.2.1 fmt0 skipData recEmpty 0
      (recInsert recEmpty 41 5) 5 rfl rfl rfl
  · exact invalid_refs_skipped_header_kept.2.2.1 fmt0 skipData recEmpty recEmpty recEmpty 1
      (recInsert recEmpty 53 7) 7 rfl rfl rfl
  · exact invalid_refs_skipped_header_kept.2.2.2.1 fmt0 skipData recEmpty recEmpty recEmpty 0
      (recInsert recEmpty 53 0) 0 ⟨"EOS", 0, 0, 0, 0, 0, 0, 0, 0, 0, some []⟩ rfl rfl rfl rfl

/- Claim C9. -/

/-- C9: the numeric fixed points: tcToSec maps 0 to 1 and 1200 to 2; the
sustain percentage of 0 centibels is exactly 100 and the two digit decimal
rendering of 100 is the string 100.00; panStr renders 500 as 50.00 and
-500 as -50.00, where Rat.divInt v 10 used by panStr is the exact rational
value v / 10 appearing in the source. -/
theorem numeric_fixed_points :
    tcToSec 0 = 1 ∧ tcToSec 1200 = 2 ∧ sustainPercent 0 = 100
    ∧ (∀ v : Int, Rat.divInt v 10 = (v : ℚ) / 10)
    ∧ toFixed2Q 100 = "100.00"
    ∧ panStr 500 = "50.00" ∧ panStr (-500) = "-50.00" := by
  refine ⟨?_, ?_, ?_, ?_, ?_, by decide, by decide⟩
  · simp [tcToSec]
  · unfold tcToSec
    rw [show ((1200 : ℝ) / 1200) = 1 by norm_num, Real.rpow_one]
  · unfold sustainPercent
    norm_num
  · intro v
    rw [Rat.divInt_eq_div]
    norm_num
  · have h1 : (100 : ℚ).num = 100 := by norm_num
    have h2 : (100 : ℚ).den = 1 := by norm_num
    unfold toFixed2Q
    rw [h1, h2]
    decide

/- Claim C10. -/

theorem allowed_not_ws {c : Char} (h : allowedChar c = true) :
    isJsWhitespace c = false := by
  cases hw : isJsWhitespace c
  · rfl
  · exfalso
    simp only [isJsWhitespace, Bool.or_eq_true, decide_eq_true_eq] at hw
    rcases hw with ((((h1 | h1) | h1) | h1) | h1) | h1 <;> subst h1 <;>
      exact absurd h (by decide)

theorem dropWhile_eq_self_of_not {p : Char → Bool} {l : List Char}
    (h : ∀ c ∈ l, p c = false) : l.dropWhile p = l := by
  cases l with
  | nil => rfl
  | cons x xs => simp [List.dropWhile, h x (by simp)]

/-- C10: every character of sanitize(name) is in the class A-Za-z0-9_- and
the output length equals the input length: disallowed characters,
whitespace included, are replaced one for one by underscores, so the
trailing trim removes nothing; consequently the emitted sample file
reference sanitize(name) ++ .wav contains only those characters plus the
dot. -/
theorem sanitize_allowed_and_length (s : String) :
    (∀ c ∈ (sanitize s).data, allowedChar c = true)
    ∧ (sanitize s).length = s.length
    ∧ (∀ c ∈ (sanitize s ++ ".wav").data, allowedChar c = true ∨ c = '.') := by
  have hall : ∀ c ∈ s.data.map (fun c => if allowedChar c then c else '_'),
      allowedChar c = true := by
    intro c hc
    rw [List.mem_map] at hc
    obtain ⟨a, _, ha⟩ := hc
    by_cases h : allowedChar a
    · rw [if_pos h] at ha
      rw [← ha]
      exact h
    · rw [if_neg h] at ha
      rw [← ha]
      decide
  have hsan : sanitize s = ⟨s.data.map (fun c => if allowedChar c then c else '_')⟩ := by
    unfold sanitize jsTrim
    congr 1
    dsimp only
    rw [dropWhile_eq_self_of_not (fun c hc => allowed_not_ws (hall c hc))]
    rw [dropWhile_eq_self_of_not (fun c hc => allowed_not_ws (hall c (by
      rw [List.mem_reverse] at hc
      exact hc)))]
    exact List.reverse_reverse _
  refine ⟨?_, ?_, ?_⟩
  · intro c hc
    rw [hsan] at hc
    exact hall c hc
  · rw [hsan]
    show (s.data.map (fun c => if allowedChar c then c else '_')).length = s.data.length
    exact List.length_map _ _
  · intro c hc
    rw [String.data_append, List.mem_append] at hc
    rcases hc with hc | hc
    · rw [hsan] at hc
      exact Or.inl (hall c hc)
    · rw [show (".wav" : String).data = ['.', 'w', 'a', 'v'] from rfl] at hc
      simp only [List.mem_cons, List.not_mem_nil, or_false] at hc
      rcases hc with h1 | h1 | h1 | h1
      · exact Or.inr h1
      · subst h1
        exact Or.inl (by decide)
      · subst h1
        exact Or.inl (by decide)
      · subst h1
        exact Or.inl (by decide)
